import Mathlib

/-!
Verification of the comet-data tool (get_comet_data.py).

The development embeds the data model and the operations of the script
shallowly: JSON scalar values become the inductive type Value (numbers are
modelled as exact rationals), the decoded API payload becomes the structure
Payload (an optional fields list, an optional data list, and a flag
recording whether the dictionary holds any further keys, which determines
Python truthiness), and each writer returns its success boolean together
with an explicit description of the effect it had on the output file.
-/

/-- A JSON scalar value as it appears in a payload row: null, a number
(modelled as an exact rational), or a string. -/
inductive Value where
  | null
  | num (q : ℚ)
  | str (s : String)
  deriving DecidableEq

/-- The decoded API payload: the optional "fields" entry, the optional
"data" entry, and whether the dictionary carries any other keys (so that
Python truthiness of the dictionary is representable). -/
structure Payload where
  fields : Option (List String)
  data : Option (List (List Value))
  otherKeys : Bool
  deriving DecidableEq

/-- Python truthiness of the payload dictionary: a dict is truthy exactly
when it is non-empty. -/
def pyTruthy (p : Payload) : Bool :=
  p.fields.isSome || p.data.isSome || p.otherKeys

/-- Whether a character is a decimal digit. -/
def isDigitChar (c : Char) : Bool :=
  48 ≤ c.toNat && c.toNat ≤ 57

/-- Numeric value of a list of decimal digit characters. -/
def digitsVal (ds : List Char) : Nat :=
  ds.foldl (fun a c => a * 10 + (c.toNat - 48)) 0

/-- Parse an optional exponent suffix (the part after the mantissa of a
decimal literal): empty means exponent 0; otherwise an e or E, an optional
sign, and at least one digit. -/
def parseExp : List Char → Option Int
  | [] => some 0
  | c :: rest =>
    if c = 'e' ∨ c = 'E' then
      let esign : Int × List Char :=
        match rest with
        | '-' :: r => (-1, r)
        | '+' :: r => (1, r)
        | _ => (1, rest)
      if esign.2 ≠ [] ∧ esign.2.all isDigitChar then
        some (esign.1 * (digitsVal esign.2 : Int))
      else none
    else none

/-- Models Python float() on ordinary decimal literals: optional
surrounding spaces, an optional sign, digits with an optional decimal
point (at least one digit overall), and an optional exponent. A string
outside this grammar fails to parse, as float() raises ValueError. -/
def parseFloat (s : String) : Option ℚ :=
  let cs1 := s.toList.dropWhile (fun c => c = ' ')
  let cs := (cs1.reverse.dropWhile (fun c => c = ' ')).reverse
  let signed : ℚ × List Char :=
    match cs with
    | '-' :: rest => (-1, rest)
    | '+' :: rest => (1, rest)
    | _ => (1, cs)
  let body := signed.2
  let intPart := body.takeWhile isDigitChar
  let afterInt := body.dropWhile isDigitChar
  let fracSplit : List Char × List Char :=
    match afterInt with
    | '.' :: r => (r.takeWhile isDigitChar, r.dropWhile isDigitChar)
    | _ => ([], afterInt)
  if intPart = [] ∧ fracSplit.1 = [] then none
  else
    match parseExp fracSplit.2 with
    | some e =>
      let mant : ℚ := (digitsVal (intPart ++ fracSplit.1) : ℚ) / (10 : ℚ) ^ fracSplit.1.length
      some (signed.1 * mant * (10 : ℚ) ^ e)
    | none => none

/-- Models Python float(value) under the try blocks of the converter: a
number converts to itself, a string is parsed as a decimal literal, and
null fails (float(None) raises TypeError, caught by the same handler as
ValueError). -/
def toFloat : Value → Option ℚ
  | .null => none
  | .num q => some q
  | .str s => parseFloat s

/-- The fixed KStars target schema, in its fixed order (kstars_fields in
the source). -/
def kstars_fields : List String :=
  ["full_name", "epoch.mjd", "q", "e", "i", "w", "om", "tp", "orbit_id", "neo",
   "M1", "M2", "diameter", "extent", "albedo", "rot_per", "per.y", "moid", "H", "G", "class"]

/-- The signature string placed in the legacy output object. -/
def ksSignature : String := "KStars comet data converted from JPL SBDB API"

/-- The if/elif chain of the converter: the KStars target name that a JPL
source field name contributes to, if any. Only these twelve source names
are handled; every other source field name contributes to no target. -/
def targetName (field : String) : Option String :=
  if field = "full_name" then some "full_name"
  else if field = "epoch" then some "epoch.mjd"
  else if field = "q" then some "q"
  else if field = "e" then some "e"
  else if field = "i" then some "i"
  else if field = "w" then some "w"
  else if field = "om" then some "om"
  else if field = "tp" then some "tp"
  else if field = "moid" then some "moid"
  else if field = "H" then some "H"
  else if field = "class" then some "class"
  else if field = "per" then some "per.y"
  else none

/-- One assignment field_map[target] = i of the loop building the field
map; a later assignment overwrites an earlier one, as in a Python dict. -/
def updateMap (m : String → Option Nat) (field : String) (i : Nat) : String → Option Nat :=
  match targetName field with
  | some t => fun k => if k = t then some i else m k
  | none => m

/-- The loop enumerating the JPL field list and recording, for each handled
source field, its column index under the corresponding KStars name. -/
def buildFieldMapAux : (String → Option Nat) → Nat → List String → (String → Option Nat)
  | m, _, [] => m
  | m, i, field :: rest => buildFieldMapAux (updateMap m field i) (i + 1) rest

/-- field_map of the converter: from KStars target name to the source
column index it is read from, when a handled source field is present. -/
def buildFieldMap (jplFields : List String) : String → Option Nat :=
  buildFieldMapAux (fun _ => none) 0 jplFields

/-- The special conversions applied to a looked-up value: per.y divides a
parsed number by 365.25 (days to years), epoch.mjd subtracts 2400000.5
from a parsed number exceeding 2400000 (JD to MJD) and passes smaller
numbers through; a parse failure yields null, and a null value skips the
conversion and stays null. All other fields pass through unchanged. -/
def convertValue (field : String) (value : Value) : Value :=
  if field = "per.y" ∧ value ≠ .null then
    match toFloat value with
    | some q => .num (q / 365.25)
    | none => .null
  else if field = "epoch.mjd" ∧ value ≠ .null then
    match toFloat value with
    | some q => if 2400000 < q then .num (q - 2400000.5) else .num q
    | none => .null
  else value

/-- The inner loop of the converter, building one KStars row: for each
target field in order, look up the mapped source column and convert its
value, or append null when the target has no mapped source column. An
out-of-range column index is an uncaught IndexError, modelled as an
error result. -/
def convertFields (fm : String → Option Nat) (row : List Value) : List String → Except Unit (List Value)
  | [] => .ok []
  | t :: ts =>
    match fm t with
    | some i =>
      match row.get? i with
      | some v =>
        match convertFields fm row ts with
        | .ok vs => .ok (convertValue t v :: vs)
        | .error e => .error e
      | none => .error ()
    | none =>
      match convertFields fm row ts with
      | .ok vs => .ok (Value.null :: vs)
      | .error e => .error e

/-- The outer loop of the converter over the source rows, in order; an
exception in any row aborts the whole conversion. -/
def convertRows (fm : String → Option Nat) : List (List Value) → Except Unit (List (List Value))
  | [] => .ok []
  | row :: rest =>
    match convertFields fm row kstars_fields with
    | .error e => .error e
    | .ok kr =>
      match convertRows fm rest with
      | .error e => .error e
      | .ok ks => .ok (kr :: ks)

/-- The legacy output object: exactly the four entries written by the
converter (signature, fields, data, count). -/
structure KStarsFormat where
  signature : String
  fields : List String
  data : List (List Value)
  count : Nat
  deriving DecidableEq

/-- Outcome of convert_to_kstars_format: the Python function returns None
(missing keys or falsy input), raises an exception (a row too short for a
mapped column index), or returns the KStars object. -/
inductive ConvertResult where
  | nullResult
  | raised
  | ok (k : KStarsFormat)
  deriving DecidableEq

/-- convert_to_kstars_format: refuse a falsy payload or one lacking the
data or fields key; otherwise build the field map from the source field
list, convert every row, and assemble the four-entry KStars object whose
count is the length of the converted row list. -/
def convert_to_kstars_format (p : Payload) : ConvertResult :=
  if pyTruthy p = false then .nullResult
  else
    match p.data, p.fields with
    | some rows, some jplFields =>
      match convertRows (buildFieldMap jplFields) rows with
      | .ok kdata => .ok ⟨ksSignature, kstars_fields, kdata, kdata.length⟩
      | .error _ => .raised
    | _, _ => .nullResult

/-- The value the converter produces for one target field of one row:
look up the mapped column, fetch the row entry there, and convert. Stated
with getD for totality; the lemmas below only use it at in-range indices. -/
def colVal (fm : String → Option Nat) (row : List Value) (t : String) : Value :=
  match fm t with
  | some i => convertValue t ((row.get? i).getD .null)
  | none => .null

/-- The full output row the converter produces from one source row. -/
def rowFn (jplFields : List String) (row : List Value) : List Value :=
  kstars_fields.map (colVal (buildFieldMap jplFields) row)

/-- Effect of save_as_csv on the output file: never opened, opened for
writing (truncating any prior file) but abandoned before anything was
written, or fully written with the header line followed by the data rows. -/
inductive CsvEffect where
  | untouched
  | truncated
  | written (header : List String) (rows : List (List Value))
  deriving DecidableEq

/-- save_as_csv: refuse a missing, falsy, or key-lacking payload before
opening the file; then open the file (truncating), and only then notice an
empty record list and fail; otherwise write the header and every row in
order and succeed. -/
def save_as_csv (data : Option Payload) : Bool × CsvEffect :=
  match data with
  | none => (false, .untouched)
  | some p =>
    if pyTruthy p = false then (false, .untouched)
    else
      match p.data, p.fields with
      | some rows, some fieldnames =>
        if rows = [] then (false, .truncated)
        else (true, .written fieldnames rows)
      | _, _ => (false, .untouched)

/-- Effect of save_as_json on the output file. -/
inductive JsonEffect where
  | untouched
  | written (payload : Payload)
  deriving DecidableEq

/-- save_as_json: refuse a missing or falsy payload; otherwise write the
whole payload exactly as received (pretty-printed) and succeed. -/
def save_as_json (data : Option Payload) : Bool × JsonEffect :=
  match data with
  | none => (false, .untouched)
  | some p =>
    if pyTruthy p = false then (false, .untouched)
    else (true, .written p)

/-- JSON escaping of one character, modelling the json module's escaping
on the characters that occur here (backslash and double quote). -/
def jsonEscapeChar (c : Char) : String :=
  if c = '\\' then "\\\\"
  else if c = '"' then "\\\""
  else String.singleton c

/-- JSON escaping of a string body. -/
def jsonEscape (s : String) : String :=
  String.join (s.toList.map jsonEscapeChar)

/-- A JSON string literal. -/
def jsonString (s : String) : String :=
  "\"" ++ jsonEscape s ++ "\""

/-- Rendering of a number in the serialized output. The digit rendering of
Python repr on floats is abstracted: the claims under verification do not
depend on it, only on the absence of separators and whitespace. -/
def numRepr (q : ℚ) : String :=
  if q.den = 1 then toString q.num
  else toString q.num ++ "/" ++ toString q.den

/-- Serialization of one scalar value. -/
def jsonValue : Value → String
  | .null => "null"
  | .num q => numRepr q
  | .str s => jsonString s

/-- A JSON array with the compact item separator (a bare comma). -/
def jsonList (f : α → String) (l : List α) : String :=
  "[" ++ String.intercalate "," (l.map f) ++ "]"

/-- json.dump of the KStars object with separators comma and colon: the
four keys in insertion order, a bare comma between entries, a bare colon
after each key, and no whitespace outside string literals. -/
def dumpCompact (k : KStarsFormat) : String :=
  "\x7b\"signature\":" ++ jsonString k.signature ++
    ",\"fields\":" ++ jsonList jsonString k.fields ++
    ",\"data\":" ++ jsonList (jsonList jsonValue) k.data ++
    ",\"count\":" ++ toString k.count ++ "\x7d"

/-- Effect of save_as_kstars on the output file. -/
inductive KStarsEffect where
  | untouched
  | written (content : String)
  deriving DecidableEq

/-- save_as_kstars: refuse a missing or falsy payload; run the converter
inside the exception handler, so that both a None result and a raised
IndexError report failure with the file never opened; on success write the
compact serialization. -/
def save_as_kstars (data : Option Payload) : Bool × KStarsEffect :=
  match data with
  | none => (false, .untouched)
  | some p =>
    if pyTruthy p = false then (false, .untouched)
    else
      match convert_to_kstars_format p with
      | .ok k => (true, .written (dumpCompact k))
      | _ => (false, .untouched)

/-- Python list slicing rows[:n]: the first n rows for nonnegative n, and
all but the last -n rows (clamped at the empty list) for negative n. -/
def pySlice (l : List (List Value)) (n : Int) : List (List Value) :=
  if 0 ≤ n then l.take n.toNat else l.take (l.length - (-n).toNat)

/-- The limit step of main: when a limit was given, is truthy (nonzero),
and the payload has a data entry, replace the data entry by its slice;
otherwise leave the payload unchanged. -/
def applyLimit (limit : Option Int) (p : Payload) : Payload :=
  match limit with
  | none => p
  | some n =>
    if n ≠ 0 ∧ p.data.isSome then
      { p with data := p.data.map (fun rows => pySlice rows n) }
    else p

/-- Every index recorded by the map-building loop is below the running
index plus the number of remaining fields. -/
theorem buildFieldMapAux_lt (rest : List String) :
    ∀ (m : String → Option Nat) (i0 : Nat),
      (∀ k j, m k = some j → j < i0) →
      ∀ k j, buildFieldMapAux m i0 rest k = some j → j < i0 + rest.length := by
  induction rest with
  | nil =>
    intro m i0 hm k j h
    simpa using hm k j h
  | cons field tl ih =>
    intro m i0 hm k j h
    simp only [buildFieldMapAux] at h
    have hstep : ∀ k2 j2, updateMap m field i0 k2 = some j2 → j2 < i0 + 1 := by
      intro k2 j2 h2
      unfold updateMap at h2
      cases htn : targetName field with
      | none =>
        rw [htn] at h2
        exact Nat.lt_succ_of_lt (hm k2 j2 h2)
      | some t =>
        rw [htn] at h2
        by_cases hk : k2 = t
        · simp [hk] at h2
          omega
        · simp [hk] at h2
          exact Nat.lt_succ_of_lt (hm k2 j2 h2)
    have := ih (updateMap m field i0) (i0 + 1) hstep k j h
    simpa [Nat.add_comm, Nat.add_assoc, Nat.add_left_comm] using this

/-- Every index in field_map is a valid position of the source field list. -/
theorem buildFieldMap_lt (jplFields : List String) (k : String) (j : Nat)
    (h : buildFieldMap jplFields k = some j) : j < jplFields.length := by
  have := buildFieldMapAux_lt jplFields (fun _ => none) 0
    (by intro k2 j2 h2; cases h2) k j h
  simpa using this

/-- Soundness of the map-building loop: a recorded binding comes from the
initial map or from a field of the list whose target name is the key, at
the corresponding running index. -/
theorem buildFieldMapAux_sound (rest : List String) :
    ∀ (m : String → Option Nat) (i0 : Nat) (k : String) (j : Nat),
      buildFieldMapAux m i0 rest k = some j →
      m k = some j ∨ ∃ d s, rest.get? d = some s ∧ j = i0 + d ∧ targetName s = some k := by
  induction rest with
  | nil =>
    intro m i0 k j h
    exact Or.inl h
  | cons field tl ih =>
    intro m i0 k j h
    simp only [buildFieldMapAux] at h
    rcases ih (updateMap m field i0) (i0 + 1) k j h with hm | ⟨d, s, hd, hj, hts⟩
    · unfold updateMap at hm
      cases htn : targetName field with
      | none =>
        rw [htn] at hm
        exact Or.inl hm
      | some t =>
        rw [htn] at hm
        by_cases hk : k = t
        · simp [hk] at hm
          refine Or.inr ⟨0, field, rfl, by omega, ?_⟩
          rw [htn, hk]
        · simp [hk] at hm
          exact Or.inl hm
    · refine Or.inr ⟨d + 1, s, ?_, by omega, hts⟩
      simpa using hd


/-- Soundness of field_map: a binding of target name k to index j means
the source field at position j has target name k. -/
theorem buildFieldMap_sound (jplFields : List String) (k : String) (j : Nat)
    (h : buildFieldMap jplFields k = some j) :
    ∃ s, jplFields.get? j = some s ∧ targetName s = some k := by
  rcases buildFieldMapAux_sound jplFields (fun _ => none) 0 k j h with hm | ⟨d, s, hd, hj, hts⟩
  · cases hm
  · exact ⟨s, by simpa [hj] using hd, hts⟩

/-- Completeness of the map-building loop: a key bound in the initial map,
or targeted by some remaining field, is bound in the final map. -/
theorem buildFieldMapAux_isSome (rest : List String) :
    ∀ (m : String → Option Nat) (i0 : Nat) (t : String),
      ((m t).isSome ∨ ∃ s ∈ rest, targetName s = some t) →
      (buildFieldMapAux m i0 rest t).isSome := by
  induction rest with
  | nil =>
    intro m i0 t h
    rcases h with h | ⟨s, hs, _⟩
    · simpa [buildFieldMapAux] using h
    · cases hs
  | cons field tl ih =>
    intro m i0 t h
    simp only [buildFieldMapAux]
    apply ih
    rcases h with hm | ⟨s, hs, hts⟩
    · left
      unfold updateMap
      cases htn : targetName field with
      | none => exact hm
      | some u =>
        by_cases ht : t = u
        · simp [ht]
        · simpa [ht] using hm
    · rcases List.mem_cons.mp hs with rfl | hmem
      · left
        unfold updateMap
        rw [hts]
        simp
      · exact Or.inr ⟨s, hmem, hts⟩

/-- Completeness of field_map: a source field whose target name is t makes
field_map resolve t. -/
theorem buildFieldMap_isSome (jplFields : List String) (s t : String)
    (hs : s ∈ jplFields) (hts : targetName s = some t) :
    (buildFieldMap jplFields t).isSome :=
  buildFieldMapAux_isSome jplFields (fun _ => none) 0 t (Or.inr ⟨s, hs, hts⟩)

/-- When every mapped index is in range of the row, the inner loop never
raises and produces exactly the looked-up-and-converted value for each
target field, in order. -/
theorem convertFields_eq_map (fm : String → Option Nat) (row : List Value)
    (ts : List String) (h : ∀ t ∈ ts, ∀ i, fm t = some i → i < row.length) :
    convertFields fm row ts = .ok (ts.map (colVal fm row)) := by
  induction ts with
  | nil => rfl
  | cons t ts ih =>
    have hrec := ih (fun u hu i hi => h u (List.mem_cons_of_mem t hu) i hi)
    simp only [convertFields, List.map]
    cases hfm : fm t with
    | none =>
      rw [hrec]
      simp [colVal, hfm]
    | some i =>
      have hi : i < row.length := h t (List.mem_cons_self t ts) i hfm
      have hget : row.get? i = some (row.get ⟨i, hi⟩) := List.get?_eq_get hi
      have hget2 : row[i]? = some (row.get ⟨i, hi⟩) := by
        rw [← List.get?_eq_getElem?]
        exact hget
      simp [colVal, hfm, hget2, hrec]

/-- Under the table invariant (row length equals field count), the outer
loop never raises and converts each source row, in order. -/
theorem convertRows_eq_map (jplFields : List String) (rows : List (List Value))
    (hinv : ∀ r ∈ rows, r.length = jplFields.length) :
    convertRows (buildFieldMap jplFields) rows = .ok (rows.map (rowFn jplFields)) := by
  induction rows with
  | nil => rfl
  | cons r rs ih =>
    have h1 : convertFields (buildFieldMap jplFields) r kstars_fields = .ok (rowFn jplFields r) := by
      apply convertFields_eq_map
      intro t _ i hi
      have := buildFieldMap_lt jplFields t i hi
      rw [hinv r (List.mem_cons_self r rs)]
      exact this
    have h2 := ih (fun r2 hr2 => hinv r2 (List.mem_cons_of_mem r hr2))
    simp only [convertRows, h1, h2, List.map]

/-- Under the table invariant, the converter succeeds and produces the
fixed signature, the fixed field list, one converted row per source row in
source order, and a count equal to the number of converted rows. -/
theorem convert_eq_ok (jplFields : List String) (rows : List (List Value)) (b : Bool)
    (hinv : ∀ r ∈ rows, r.length = jplFields.length) :
    convert_to_kstars_format ⟨some jplFields, some rows, b⟩ =
      .ok ⟨ksSignature, kstars_fields, rows.map (rowFn jplFields),
           (rows.map (rowFn jplFields)).length⟩ := by
  have h := convertRows_eq_map jplFields rows hinv
  simp [convert_to_kstars_format, pyTruthy, h]

/-- A mapped target field whose index misses the row makes the inner loop
raise. -/
theorem convertFields_error (fm : String → Option Nat) (row : List Value)
    (t : String) (ts : List String) (ht : t ∈ ts) (i : Nat) (hi : fm t = some i)
    (hnone : row.get? i = none) : convertFields fm row ts = .error () := by
  have hnone2 : row[i]? = none := by
    rw [← List.get?_eq_getElem?]
    exact hnone
  induction ts with
  | nil => cases ht
  | cons u ts ih =>
    simp only [convertFields]
    rcases List.mem_cons.mp ht with rfl | hmem
    · simp [hi, hnone2]
    · cases hu : fm u with
      | none => simp [ih hmem]
      | some j =>
        cases hj : row.get? j with
        | none =>
          have hj2 : row[j]? = none := by
            rw [← List.get?_eq_getElem?]
            exact hj
          simp [hj2]
        | some v =>
          have hj2 : row[j]? = some v := by
            rw [← List.get?_eq_getElem?]
            exact hj
          simp [hj2, ih hmem]

/-- A raising row makes the outer loop raise. -/
theorem convertRows_error (fm : String → Option Nat) (rows : List (List Value))
    (r : List Value) (hr : r ∈ rows)
    (herr : convertFields fm r kstars_fields = .error ()) :
    convertRows fm rows = .error () := by
  induction rows with
  | nil => cases hr
  | cons r2 rs ih =>
    simp only [convertRows]
    rcases List.mem_cons.mp hr with rfl | hmem
    · rw [herr]
    · cases h2 : convertFields fm r2 kstars_fields with
      | error e => rfl
      | ok kr => rw [ih hmem]

/-- A converter success forces the payload to be truthy and to own both
keys, and pins down every component of the produced object. -/
theorem convert_ok_inv (p : Payload) (k : KStarsFormat)
    (h : convert_to_kstars_format p = .ok k) :
    pyTruthy p = true ∧ k.signature = ksSignature ∧ k.fields = kstars_fields ∧
      k.count = k.data.length := by
  unfold convert_to_kstars_format at h
  by_cases ht : pyTruthy p = false
  · rw [if_pos ht] at h
    cases h
  · rw [if_neg ht] at h
    refine ⟨by simpa using ht, ?_⟩
    split at h
    · split at h
      · cases h
        exact ⟨rfl, rfl, rfl⟩
      · cases h
    · cases h

/-- Mapping a list commutes with positional lookup. -/
theorem get?_map_eq {α β : Type} (f : α → β) (l : List α) {n : Nat} {a : α}
    (h : l.get? n = some a) : (l.map f).get? n = some (f a) := by
  rw [List.get?_eq_getElem?] at h ⊢
  rw [List.getElem?_map, h]
  rfl

/-- Claim C1: for every payload holding both a fields list and a data row
list (rows aligned to the field list, per the Table invariant of the data
model), the converter returns a table whose field list is exactly the
fixed 21 KStars target names in the fixed order, regardless of the source
field order, with exactly one output row per source row in the same order,
and every output row has length 21. -/
theorem C1_fixed_schema (jplFields : List String) (rows : List (List Value)) (b : Bool)
    (hinv : ∀ r ∈ rows, r.length = jplFields.length) :
    convert_to_kstars_format ⟨some jplFields, some rows, b⟩ =
      .ok ⟨ksSignature, kstars_fields, rows.map (rowFn jplFields),
           (rows.map (rowFn jplFields)).length⟩ ∧
    kstars_fields.length = 21 ∧
    (rows.map (rowFn jplFields)).length = rows.length ∧
    ∀ r2 ∈ rows.map (rowFn jplFields), r2.length = 21 := by
  refine ⟨convert_eq_ok jplFields rows b hinv, by decide, List.length_map rows _, ?_⟩
  intro r2 hr2
  rcases List.mem_map.mp hr2 with ⟨r, _, rfl⟩
  simp [rowFn, kstars_fields]

/-- Witness for C1 at a concrete one-column, one-row payload. -/
theorem C1_fixed_schema_witness :
    (∀ r ∈ [[Value.str "1P"]], r.length = ["full_name"].length) ∧
    (convert_to_kstars_format ⟨some ["full_name"], some [[Value.str "1P"]], false⟩ =
      .ok ⟨ksSignature, kstars_fields, [[Value.str "1P"]].map (rowFn ["full_name"]),
           ([[Value.str "1P"]].map (rowFn ["full_name"])).length⟩ ∧
     kstars_fields.length = 21 ∧
     ([[Value.str "1P"]].map (rowFn ["full_name"])).length = [[Value.str "1P"]].length ∧
     ∀ r2 ∈ [[Value.str "1P"]].map (rowFn ["full_name"]), r2.length = 21) :=
  ⟨by decide, C1_fixed_schema ["full_name"] [[Value.str "1P"]] false (by decide)⟩

/-- Claim C10: a payload with both keys in which some row is too short for
a mapped column index makes save_as_kstars return failure rather than
propagate the IndexError, and the output file is never opened, because the
conversion error occurs before the file is opened. -/
theorem C10_short_row_safe (jplFields : List String) (rows : List (List Value)) (b : Bool)
    (t : String) (ht : t ∈ kstars_fields) (i : Nat)
    (hi : buildFieldMap jplFields t = some i)
    (r : List Value) (hr : r ∈ rows) (hshort : r.get? i = none) :
    save_as_kstars (some ⟨some jplFields, some rows, b⟩) = (false, KStarsEffect.untouched) := by
  have h1 : convertFields (buildFieldMap jplFields) r kstars_fields = .error () :=
    convertFields_error _ r t kstars_fields ht i hi hshort
  have h2 : convertRows (buildFieldMap jplFields) rows = .error () :=
    convertRows_error _ rows r hr h1
  simp [save_as_kstars, pyTruthy, convert_to_kstars_format, h2]

/-- Witness for C10: the source has a per column, so per.y is mapped to
column 0, but the single row is empty. -/
theorem C10_short_row_safe_witness :
    ("per.y" ∈ kstars_fields ∧ buildFieldMap ["per"] "per.y" = some 0 ∧
     ([] : List Value) ∈ [([] : List Value)] ∧ ([] : List Value).get? 0 = none) ∧
    save_as_kstars (some ⟨some ["per"], some [[]], false⟩) = (false, KStarsEffect.untouched) :=
  ⟨⟨by decide, by decide, by decide, by decide⟩,
   C10_short_row_safe ["per"] [[]] false "per.y" (by decide) 0 (by decide) [] (by decide) (by decide)⟩

/-- Claim C5 (amended): for every positive integer N given as the limit
and every payload owning a data list, the limit step replaces the data
list by its first N rows in order (all rows unchanged when N is at least
the row count) and leaves the fields entry alone. The amendment restricts
the claim to positive N: the source guards the truncation with the
truthiness of the limit, so N = 0 leaves the rows untouched instead of
truncating to zero rows. -/
theorem C5_limit_amended (n : Int) (hn : 0 < n) (p : Payload) (rows : List (List Value))
    (hd : p.data = some rows) :
    (applyLimit (some n) p).data = some (rows.take n.toNat) ∧
    (applyLimit (some n) p).fields = p.fields ∧
    (rows.length ≤ n.toNat → (applyLimit (some n) p).data = some rows) := by
  have hne : n ≠ 0 := by omega
  have hsome : p.data.isSome := by rw [hd]; rfl
  have hcond : applyLimit (some n) p =
      { p with data := p.data.map (fun rs => pySlice rs n) } := by
    show (if n ≠ 0 ∧ p.data.isSome = true then
        { p with data := p.data.map (fun rs => pySlice rs n) } else p) =
      { p with data := p.data.map (fun rs => pySlice rs n) }
    rw [if_pos ⟨hne, hsome⟩]
  have hslice : pySlice rows n = rows.take n.toNat := by
    unfold pySlice
    rw [if_pos (le_of_lt hn)]
  refine ⟨?_, ?_, ?_⟩
  · rw [hcond]
    simp [hd, hslice]
  · rw [hcond]
  · intro hle
    rw [hcond]
    simp [hd, hslice, List.take_of_length_le hle]

/-- Witness for C5 (amended) at limit 2 over three rows. -/
theorem C5_limit_amended_witness :
    ((0 : Int) < 2 ∧
     (⟨none, some [[Value.null], [Value.null], [Value.null]], false⟩ : Payload).data =
       some [[Value.null], [Value.null], [Value.null]]) ∧
    ((applyLimit (some 2) ⟨none, some [[Value.null], [Value.null], [Value.null]], false⟩).data =
       some ([[Value.null], [Value.null], [Value.null]].take (2 : Int).toNat) ∧
     (applyLimit (some 2) ⟨none, some [[Value.null], [Value.null], [Value.null]], false⟩).fields =
       (⟨none, some [[Value.null], [Value.null], [Value.null]], false⟩ : Payload).fields ∧
     ([[Value.null], [Value.null], [Value.null]].length ≤ (2 : Int).toNat →
       (applyLimit (some 2) ⟨none, some [[Value.null], [Value.null], [Value.null]], false⟩).data =
         some [[Value.null], [Value.null], [Value.null]])) :=
  ⟨⟨by decide, by decide⟩,
   C5_limit_amended 2 (by decide) ⟨none, some [[Value.null], [Value.null], [Value.null]], false⟩
     [[Value.null], [Value.null], [Value.null]] (by decide)⟩

/-- Counterexample to claim C5 as stated: with limit N = 0 over one row
(so N < M), the limit is falsy and the code keeps the row, while the claim
demands exactly the first 0 rows, an empty list. -/
theorem C5_counterexample :
    (applyLimit (some 0) ⟨none, some [[Value.null]], false⟩).data = some [[Value.null]] ∧
    List.take (0 : Int).toNat [[Value.null]] = ([] : List (List Value)) ∧
    some [[Value.null]] ≠ some ([] : List (List Value)) := by decide

/-- Claim C6 (amended): the CSV writer fails when the record list is empty
(the code checks the row list, not the field list, and only after opening
the file); for a payload with both keys and a non-empty row list it
succeeds, writing the field names first and then one line per row in
order. The amendment replaces the zero-fields failure condition by the
zero-rows one the code implements. -/
theorem C6_csv_amended (fieldnames : List String) (rows : List (List Value)) (b : Bool) :
    save_as_csv (some ⟨some fieldnames, some [], b⟩) = (false, CsvEffect.truncated) ∧
    (rows ≠ [] →
      save_as_csv (some ⟨some fieldnames, some rows, b⟩) =
        (true, CsvEffect.written fieldnames rows)) := by
  constructor
  · simp [save_as_csv, pyTruthy]
  · intro hne
    simp [save_as_csv, pyTruthy, hne]

/-- Witness for C6 (amended) at a one-field payload. -/
theorem C6_csv_amended_witness :
    save_as_csv (some ⟨some ["a"], some [], false⟩) = (false, CsvEffect.truncated) ∧
    ([[Value.str "x"]] ≠ ([] : List (List Value)) →
      save_as_csv (some ⟨some ["a"], some [[Value.str "x"]], false⟩) =
        (true, CsvEffect.written ["a"] [[Value.str "x"]])) :=
  C6_csv_amended ["a"] [[Value.str "x"]] false

/-- Counterexample to claim C6 as stated: a payload whose field list is
empty (zero fields) but whose row list is non-empty makes the CSV writer
succeed, while the claim says it must fail. -/
theorem C6_counterexample :
    save_as_csv (some ⟨some [], some [[]], false⟩) = (true, CsvEffect.written [] [[]]) ∧
    ([] : List String).length = 0 := by decide

/-- Claim C7 (amended): for every non-empty (truthy) payload lacking the
data key, the CSV writer and the legacy writer each report failure without
touching the output file, while the JSON passthrough writer succeeds and
writes the payload as received. The amendment adds non-emptiness: the
empty payload dictionary is falsy, and then the JSON writer fails too. -/
theorem C7_missing_data_amended (p : Payload) (hd : p.data = none) (ht : pyTruthy p = true) :
    save_as_csv (some p) = (false, CsvEffect.untouched) ∧
    save_as_kstars (some p) = (false, KStarsEffect.untouched) ∧
    save_as_json (some p) = (true, JsonEffect.written p) := by
  refine ⟨?_, ?_, ?_⟩
  · cases hf : p.fields with
    | none => simp [save_as_csv, hd, hf, ht]
    | some fs => simp [save_as_csv, hd, hf, ht]
  · have hc : convert_to_kstars_format p = .nullResult := by
      unfold convert_to_kstars_format
      rw [if_neg (by simp [ht]), hd]
    simp [save_as_kstars, ht, hc]
  · simp [save_as_json, ht]

/-- Witness for C7 (amended) at a payload holding only a fields entry. -/
theorem C7_missing_data_amended_witness :
    ((⟨some ["x"], none, false⟩ : Payload).data = none ∧
     pyTruthy ⟨some ["x"], none, false⟩ = true) ∧
    (save_as_csv (some ⟨some ["x"], none, false⟩) = (false, CsvEffect.untouched) ∧
     save_as_kstars (some ⟨some ["x"], none, false⟩) = (false, KStarsEffect.untouched) ∧
     save_as_json (some ⟨some ["x"], none, false⟩) =
       (true, JsonEffect.written ⟨some ["x"], none, false⟩)) :=
  ⟨⟨by decide, by decide⟩,
   C7_missing_data_amended ⟨some ["x"], none, false⟩ (by decide) (by decide)⟩

/-- Counterexample to claim C7 as stated: the empty payload dictionary
lacks the data key, yet the JSON passthrough writer reports failure and
writes nothing, because the empty dictionary is falsy. -/
theorem C7_counterexample :
    save_as_json (some ⟨none, none, false⟩) = (false, JsonEffect.untouched) ∧
    (⟨none, none, false⟩ : Payload).data = none := by decide

/-- Claim C9 (amended): a writer invocation that fails for a content
reason leaves the output file untouched, with one exception the code
forces: the CSV writer detects an empty record list only after opening
the file for writing, so that particular failure truncates a pre-existing
file. The JSON and legacy writers never touch the file on failure, and
the CSV writer's other failures happen before the file is opened.
(OS-level I/O failures are outside the model, as the claim allows.) -/
theorem C9_no_truncation_amended (p? : Option Payload) :
    ((save_as_json p?).1 = false → (save_as_json p?).2 = JsonEffect.untouched) ∧
    ((save_as_kstars p?).1 = false → (save_as_kstars p?).2 = KStarsEffect.untouched) ∧
    ((save_as_csv p?).1 = false →
      (save_as_csv p?).2 = CsvEffect.untouched ∨
      ((save_as_csv p?).2 = CsvEffect.truncated ∧ p?.bind Payload.data = some [])) := by
  refine ⟨?_, ?_, ?_⟩
  · cases p? with
    | none => intro _; rfl
    | some p =>
      by_cases ht : pyTruthy p = false
      · simp [save_as_json, ht]
      · simp [save_as_json, ht]
  · cases p? with
    | none => intro _; rfl
    | some p =>
      by_cases ht : pyTruthy p = false
      · simp [save_as_kstars, ht]
      · cases hc : convert_to_kstars_format p with
        | ok k => simp [save_as_kstars, ht, hc]
        | nullResult => simp [save_as_kstars, ht, hc]
        | raised => simp [save_as_kstars, ht, hc]
  · cases p? with
    | none => intro _; exact Or.inl rfl
    | some p =>
      by_cases ht : pyTruthy p = false
      · simp [save_as_csv, ht]
      · cases hd : p.data with
        | none =>
          cases hf : p.fields with
          | none => simp [save_as_csv, ht, hd, hf]
          | some fs => simp [save_as_csv, ht, hd, hf]
        | some rows =>
          cases hf : p.fields with
          | none => simp [save_as_csv, ht, hd, hf]
          | some fs =>
            by_cases hrows : rows = []
            · subst hrows
              simp [save_as_csv, ht, hd, hf]
            · simp [save_as_csv, ht, hd, hf, hrows]

/-- Witness for C9 (amended): the CSV writer on a payload with a field
list but an empty record list fails after truncating the file, landing in
the allowed exceptional disjunct. -/
theorem C9_no_truncation_amended_witness :
    ((save_as_csv (some ⟨some ["a"], some [], false⟩)).1 = false) ∧
    ((save_as_csv (some ⟨some ["a"], some [], false⟩)).2 = CsvEffect.untouched ∨
     ((save_as_csv (some ⟨some ["a"], some [], false⟩)).2 = CsvEffect.truncated ∧
      (some (⟨some ["a"], some [], false⟩ : Payload)).bind Payload.data = some [])) :=
  ⟨by decide, (C9_no_truncation_amended (some ⟨some ["a"], some [], false⟩)).2.2 (by decide)⟩

/-- Counterexample to claim C9 as stated: the CSV writer invoked on a
payload with a field list and an empty record list reports failure for a
content reason, yet it has already opened the output file for writing,
truncating any pre-existing file. -/
theorem C9_counterexample :
    save_as_csv (some ⟨some ["a"], some [], false⟩) = (false, CsvEffect.truncated) ∧
    CsvEffect.truncated ≠ CsvEffect.untouched := by decide

/-- Claim C8: for every payload the converter accepts, the legacy writer
succeeds and writes the compact serialization of the produced object; the
object carries exactly the four entries (signature, the fixed 21-name
field list, the row data, and a count equal to the row data's length), and
the serialization places a bare colon after each key and a bare comma
between entries, with no added whitespace. -/
theorem C8_legacy_structure (p : Payload) (k : KStarsFormat)
    (h : convert_to_kstars_format p = .ok k) :
    save_as_kstars (some p) = (true, KStarsEffect.written (dumpCompact k)) ∧
    k.count = k.data.length ∧ k.fields = kstars_fields ∧ k.signature = ksSignature ∧
    dumpCompact k = "\x7b\"signature\":" ++ jsonString k.signature ++
      ",\"fields\":" ++ jsonList jsonString k.fields ++
      ",\"data\":" ++ jsonList (jsonList jsonValue) k.data ++
      ",\"count\":" ++ toString k.count ++ "\x7d" := by
  obtain ⟨ht, hsig, hf, hc⟩ := convert_ok_inv p k h
  refine ⟨?_, hc, hf, hsig, rfl⟩
  simp [save_as_kstars, ht, h]

/-- Witness for C8 at the empty-rows payload, whose conversion succeeds
with zero converted rows. -/
theorem C8_legacy_structure_witness :
    (convert_to_kstars_format ⟨some [], some [], false⟩ =
      .ok ⟨ksSignature, kstars_fields, [], 0⟩) ∧
    (save_as_kstars (some ⟨some [], some [], false⟩) =
      (true, KStarsEffect.written (dumpCompact ⟨ksSignature, kstars_fields, [], 0⟩)) ∧
     (⟨ksSignature, kstars_fields, [], 0⟩ : KStarsFormat).count =
       (⟨ksSignature, kstars_fields, [], 0⟩ : KStarsFormat).data.length ∧
     (⟨ksSignature, kstars_fields, [], 0⟩ : KStarsFormat).fields = kstars_fields ∧
     (⟨ksSignature, kstars_fields, [], 0⟩ : KStarsFormat).signature = ksSignature ∧
     dumpCompact ⟨ksSignature, kstars_fields, [], 0⟩ =
       "\x7b\"signature\":" ++ jsonString ksSignature ++
       ",\"fields\":" ++ jsonList jsonString kstars_fields ++
       ",\"data\":" ++ jsonList (jsonList jsonValue) ([] : List (List Value)) ++
       ",\"count\":" ++ toString (0 : Nat) ++ "\x7d") :=
  ⟨by decide, C8_legacy_structure ⟨some [], some [], false⟩ ⟨ksSignature, kstars_fields, [], 0⟩ (by decide)⟩

/-- Claim C2 (amended): the converter reads a target field from a source
column exactly when a source field whose target name (under the converter's
twelve-name chain: ten identical names plus epoch to epoch.mjd and per to
per.y) is that target exists; the value is then the converted entry of that
column. When no source field maps to the target — in particular for the
nine target fields outside the chain's range (orbit_id, neo, M1, M2,
diameter, extent, albedo, rot_per, G), even when an identically named
source field exists — the output value is null in every row. The amendment
restricts "same name as the target" to the twelve handled names. -/
theorem C2_field_mapping_amended (jplFields : List String) (rows : List (List Value)) (b : Bool)
    (hinv : ∀ r ∈ rows, r.length = jplFields.length)
    (t : String) (j : Nat) (hj : kstars_fields.get? j = some t)
    (m : Nat) (r : List Value) (hm : rows.get? m = some r) :
    convert_to_kstars_format ⟨some jplFields, some rows, b⟩ =
      .ok ⟨ksSignature, kstars_fields, rows.map (rowFn jplFields),
           (rows.map (rowFn jplFields)).length⟩ ∧
    (rows.map (rowFn jplFields)).get? m = some (rowFn jplFields r) ∧
    (rowFn jplFields r).get? j = some (colVal (buildFieldMap jplFields) r t) ∧
    ((¬ ∃ s ∈ jplFields, targetName s = some t) →
      colVal (buildFieldMap jplFields) r t = Value.null) ∧
    (∀ i, buildFieldMap jplFields t = some i →
      ∃ s, jplFields.get? i = some s ∧ targetName s = some t ∧ i < r.length ∧
        colVal (buildFieldMap jplFields) r t = convertValue t ((r.get? i).getD Value.null)) ∧
    ((∃ s ∈ jplFields, targetName s = some t) → (buildFieldMap jplFields t).isSome) := by
  refine ⟨convert_eq_ok jplFields rows b hinv, get?_map_eq _ _ hm, ?_, ?_, ?_, ?_⟩
  · show (kstars_fields.map (colVal (buildFieldMap jplFields) r)).get? j = _
    exact get?_map_eq _ _ hj
  · intro hno
    cases hfm : buildFieldMap jplFields t with
    | none => simp [colVal, hfm]
    | some i =>
      exfalso
      obtain ⟨s, hsi, hts⟩ := buildFieldMap_sound jplFields t i hfm
      exact hno ⟨s, List.get?_mem hsi, hts⟩
  · intro i hfm
    obtain ⟨s, hsi, hts⟩ := buildFieldMap_sound jplFields t i hfm
    have hlt := buildFieldMap_lt jplFields t i hfm
    have hrlen : r.length = jplFields.length := hinv r (List.get?_mem hm)
    refine ⟨s, hsi, hts, by omega, ?_⟩
    simp [colVal, hfm]
  · rintro ⟨s, hs, hts⟩
    exact buildFieldMap_isSome jplFields s t hs hts

/-- Witness for C2 (amended): a single per column, read for target per.y
at target position 16. -/
theorem C2_field_mapping_amended_witness :
    ((∀ r ∈ [[Value.str "730.5"]], r.length = ["per"].length) ∧
     kstars_fields.get? 16 = some "per.y" ∧
     [[Value.str "730.5"]].get? 0 = some [Value.str "730.5"]) ∧
    (convert_to_kstars_format ⟨some ["per"], some [[Value.str "730.5"]], false⟩ =
      .ok ⟨ksSignature, kstars_fields, [[Value.str "730.5"]].map (rowFn ["per"]),
           ([[Value.str "730.5"]].map (rowFn ["per"])).length⟩ ∧
     ([[Value.str "730.5"]].map (rowFn ["per"])).get? 0 =
       some (rowFn ["per"] [Value.str "730.5"]) ∧
     (rowFn ["per"] [Value.str "730.5"]).get? 16 =
       some (colVal (buildFieldMap ["per"]) [Value.str "730.5"] "per.y") ∧
     ((¬ ∃ s ∈ ["per"], targetName s = some "per.y") →
       colVal (buildFieldMap ["per"]) [Value.str "730.5"] "per.y" = Value.null) ∧
     (∀ i, buildFieldMap ["per"] "per.y" = some i →
       ∃ s, ["per"].get? i = some s ∧ targetName s = some "per.y" ∧
         i < [Value.str "730.5"].length ∧
         colVal (buildFieldMap ["per"]) [Value.str "730.5"] "per.y" =
           convertValue "per.y" (([Value.str "730.5"].get? i).getD Value.null)) ∧
     ((∃ s ∈ ["per"], targetName s = some "per.y") →
       (buildFieldMap ["per"] "per.y").isSome)) :=
  ⟨⟨by decide, by decide, by decide⟩,
   C2_field_mapping_amended ["per"] [[Value.str "730.5"]] false (by decide)
     "per.y" 16 (by decide) 0 [Value.str "730.5"] (by decide)⟩

/-- Counterexample to claim C2 as stated: the source has a field named
orbit_id, identical to target field orbit_id (position 8 of the target
schema), with value "X" in the only row; yet the converted row holds null
there, because orbit_id is not among the twelve names the if/elif chain
handles. -/
theorem C2_counterexample :
    convert_to_kstars_format ⟨some ["orbit_id"], some [[Value.str "X"]], false⟩ =
      ConvertResult.ok ⟨ksSignature, kstars_fields, [List.replicate 21 Value.null], 1⟩ ∧
    kstars_fields.get? 8 = some "orbit_id" ∧
    (List.replicate 21 Value.null).get? 8 = some Value.null ∧
    Value.null ≠ Value.str "X" := by decide

/-- The epoch conversion on a non-null, successfully parsed value, above
the Julian-Date threshold. -/
theorem convertValue_epoch_gt (v : Value) (q : ℚ) (hq : toFloat v = some q)
    (hlt : 2400000 < q) : convertValue "epoch.mjd" v = Value.num (q - 2400000.5) := by
  have hvnull : v ≠ Value.null := by
    intro hv0
    rw [hv0] at hq
    simp [toFloat] at hq
  unfold convertValue
  rw [if_neg (by rintro ⟨h1, _⟩; revert h1; decide), if_pos ⟨rfl, hvnull⟩]
  simp only [hq]
  rw [if_pos hlt]

/-- The epoch conversion on a non-null, successfully parsed value, at or
below the Julian-Date threshold. -/
theorem convertValue_epoch_le (v : Value) (q : ℚ) (hq : toFloat v = some q)
    (hle : q ≤ 2400000) : convertValue "epoch.mjd" v = Value.num q := by
  have hvnull : v ≠ Value.null := by
    intro hv0
    rw [hv0] at hq
    simp [toFloat] at hq
  unfold convertValue
  rw [if_neg (by rintro ⟨h1, _⟩; revert h1; decide), if_pos ⟨rfl, hvnull⟩]
  simp only [hq]
  rw [if_neg (not_lt.mpr hle)]

/-- The epoch conversion yields null whenever the value does not parse
(including the null value itself). -/
theorem convertValue_epoch_none (v : Value) (hq : toFloat v = none) :
    convertValue "epoch.mjd" v = Value.null := by
  by_cases hv0 : v = Value.null
  · subst hv0
    decide
  · unfold convertValue
    rw [if_neg (by rintro ⟨h1, _⟩; revert h1; decide), if_pos ⟨rfl, hv0⟩]
    simp only [hq]

/-- The period conversion on a non-null, successfully parsed value. -/
theorem convertValue_per_some (v : Value) (q : ℚ) (hq : toFloat v = some q) :
    convertValue "per.y" v = Value.num (q / 365.25) := by
  have hvnull : v ≠ Value.null := by
    intro hv0
    rw [hv0] at hq
    simp [toFloat] at hq
  unfold convertValue
  rw [if_pos ⟨rfl, hvnull⟩]
  simp only [hq]

/-- The period conversion yields null whenever the value does not parse
(including the null value itself). -/
theorem convertValue_per_none (v : Value) (hq : toFloat v = none) :
    convertValue "per.y" v = Value.null := by
  by_cases hv0 : v = Value.null
  · subst hv0
    decide
  · unfold convertValue
    rw [if_pos ⟨rfl, hv0⟩]
    simp only [hq]

/-- The looked-up value reaching the conversion for a mapped target. -/
theorem colVal_eq_convert (fm : String → Option Nat) (r : List Value) (t : String)
    (i : Nat) (hi : fm t = some i) (v : Value) (hv : r.get? i = some v) :
    colVal fm r t = convertValue t v := by
  have hv2 : r[i]? = some v := by
    rw [← List.get?_eq_getElem?]
    exact hv
  simp [colVal, hi, hv2]

/-- Claim C3: for every row the converter processes (under the Table
invariant) whose source epoch column exists at index i: a value parsing
above 2400000 comes out at target position 1 (epoch.mjd) as the number
minus 2400000.5; a value parsing at or below 2400000 is passed through as
that number; a null value stays null; a value failing to parse becomes
null — and in all cases the conversion succeeds, raising no error. -/
theorem C3_epoch_conversion (jplFields : List String) (rows : List (List Value)) (b : Bool)
    (hinv : ∀ r ∈ rows, r.length = jplFields.length)
    (m : Nat) (r : List Value) (hm : rows.get? m = some r)
    (i : Nat) (hi : buildFieldMap jplFields "epoch.mjd" = some i)
    (v : Value) (hv : r.get? i = some v) :
    convert_to_kstars_format ⟨some jplFields, some rows, b⟩ =
      .ok ⟨ksSignature, kstars_fields, rows.map (rowFn jplFields),
           (rows.map (rowFn jplFields)).length⟩ ∧
    (rows.map (rowFn jplFields)).get? m = some (rowFn jplFields r) ∧
    (rowFn jplFields r).get? 1 = some (colVal (buildFieldMap jplFields) r "epoch.mjd") ∧
    (v = Value.null → colVal (buildFieldMap jplFields) r "epoch.mjd" = Value.null) ∧
    (∀ q, toFloat v = some q → 2400000 < q →
      colVal (buildFieldMap jplFields) r "epoch.mjd" = Value.num (q - 2400000.5)) ∧
    (∀ q, toFloat v = some q → q ≤ 2400000 →
      colVal (buildFieldMap jplFields) r "epoch.mjd" = Value.num q) ∧
    (toFloat v = none → colVal (buildFieldMap jplFields) r "epoch.mjd" = Value.null) := by
  have hcv : colVal (buildFieldMap jplFields) r "epoch.mjd" = convertValue "epoch.mjd" v :=
    colVal_eq_convert _ r _ i hi v hv
  refine ⟨convert_eq_ok jplFields rows b hinv, get?_map_eq _ _ hm, ?_, ?_, ?_, ?_, ?_⟩
  · show (kstars_fields.map (colVal (buildFieldMap jplFields) r)).get? 1 = _
    exact get?_map_eq _ _ (by decide)
  · intro hv0
    rw [hcv, hv0]
    decide
  · intro q hq hlt
    rw [hcv]
    exact convertValue_epoch_gt v q hq hlt
  · intro q hq hle
    rw [hcv]
    exact convertValue_epoch_le v q hq hle
  · intro hq
    rw [hcv]
    exact convertValue_epoch_none v hq

/-- Witness for C3 at the one-row Halley-style payload of the spec's
example, with the epoch column at source index 2. -/
theorem C3_epoch_conversion_witness :
    ((∀ r ∈ [[Value.str "1P/Halley", Value.str "27740.5", Value.str "2450000.5"]],
        r.length = ["full_name", "per", "epoch"].length) ∧
     [[Value.str "1P/Halley", Value.str "27740.5", Value.str "2450000.5"]].get? 0 =
       some [Value.str "1P/Halley", Value.str "27740.5", Value.str "2450000.5"] ∧
     buildFieldMap ["full_name", "per", "epoch"] "epoch.mjd" = some 2 ∧
     [Value.str "1P/Halley", Value.str "27740.5", Value.str "2450000.5"].get? 2 =
       some (Value.str "2450000.5")) ∧
    (convert_to_kstars_format ⟨some ["full_name", "per", "epoch"],
        some [[Value.str "1P/Halley", Value.str "27740.5", Value.str "2450000.5"]], false⟩ =
      .ok ⟨ksSignature, kstars_fields,
           [[Value.str "1P/Halley", Value.str "27740.5", Value.str "2450000.5"]].map
             (rowFn ["full_name", "per", "epoch"]),
           ([[Value.str "1P/Halley", Value.str "27740.5", Value.str "2450000.5"]].map
             (rowFn ["full_name", "per", "epoch"])).length⟩ ∧
     ([[Value.str "1P/Halley", Value.str "27740.5", Value.str "2450000.5"]].map
        (rowFn ["full_name", "per", "epoch"])).get? 0 =
       some (rowFn ["full_name", "per", "epoch"]
         [Value.str "1P/Halley", Value.str "27740.5", Value.str "2450000.5"]) ∧
     (rowFn ["full_name", "per", "epoch"]
        [Value.str "1P/Halley", Value.str "27740.5", Value.str "2450000.5"]).get? 1 =
       some (colVal (buildFieldMap ["full_name", "per", "epoch"])
         [Value.str "1P/Halley", Value.str "27740.5", Value.str "2450000.5"] "epoch.mjd") ∧
     (Value.str "2450000.5" = Value.null →
       colVal (buildFieldMap ["full_name", "per", "epoch"])
         [Value.str "1P/Halley", Value.str "27740.5", Value.str "2450000.5"] "epoch.mjd" =
       Value.null) ∧
     (∀ q, toFloat (Value.str "2450000.5") = some q → 2400000 < q →
       colVal (buildFieldMap ["full_name", "per", "epoch"])
         [Value.str "1P/Halley", Value.str "27740.5", Value.str "2450000.5"] "epoch.mjd" =
       Value.num (q - 2400000.5)) ∧
     (∀ q, toFloat (Value.str "2450000.5") = some q → q ≤ 2400000 →
       colVal (buildFieldMap ["full_name", "per", "epoch"])
         [Value.str "1P/Halley", Value.str "27740.5", Value.str "2450000.5"] "epoch.mjd" =
       Value.num q) ∧
     (toFloat (Value.str "2450000.5") = none →
       colVal (buildFieldMap ["full_name", "per", "epoch"])
         [Value.str "1P/Halley", Value.str "27740.5", Value.str "2450000.5"] "epoch.mjd" =
       Value.null)) :=
  ⟨⟨by decide, by decide, by decide, by decide⟩,
   C3_epoch_conversion ["full_name", "per", "epoch"]
     [[Value.str "1P/Halley", Value.str "27740.5", Value.str "2450000.5"]] false (by decide)
     0 [Value.str "1P/Halley", Value.str "27740.5", Value.str "2450000.5"] (by decide)
     2 (by decide) (Value.str "2450000.5") (by decide)⟩

/-- Claim C4: for every row the converter processes (under the Table
invariant): when no source per column exists, target position 16 (per.y)
is null; when the per column exists and its value parses as a number q,
the output is q / 365.25; when the value is null or fails to parse, the
output is null — and in all cases the conversion succeeds, raising no
error. -/
theorem C4_per_conversion (jplFields : List String) (rows : List (List Value)) (b : Bool)
    (hinv : ∀ r ∈ rows, r.length = jplFields.length)
    (m : Nat) (r : List Value) (hm : rows.get? m = some r) :
    convert_to_kstars_format ⟨some jplFields, some rows, b⟩ =
      .ok ⟨ksSignature, kstars_fields, rows.map (rowFn jplFields),
           (rows.map (rowFn jplFields)).length⟩ ∧
    (rows.map (rowFn jplFields)).get? m = some (rowFn jplFields r) ∧
    (rowFn jplFields r).get? 16 = some (colVal (buildFieldMap jplFields) r "per.y") ∧
    (buildFieldMap jplFields "per.y" = none →
      colVal (buildFieldMap jplFields) r "per.y" = Value.null) ∧
    (∀ i v q, buildFieldMap jplFields "per.y" = some i → r.get? i = some v →
      toFloat v = some q →
      colVal (buildFieldMap jplFields) r "per.y" = Value.num (q / 365.25)) ∧
    (∀ i v, buildFieldMap jplFields "per.y" = some i → r.get? i = some v →
      toFloat v = none →
      colVal (buildFieldMap jplFields) r "per.y" = Value.null) := by
  refine ⟨convert_eq_ok jplFields rows b hinv, get?_map_eq _ _ hm, ?_, ?_, ?_, ?_⟩
  · show (kstars_fields.map (colVal (buildFieldMap jplFields) r)).get? 16 = _
    exact get?_map_eq _ _ (by decide)
  · intro hma
    simp [colVal, hma]
  · intro i v q hi hv hq
    rw [colVal_eq_convert _ r _ i hi v hv]
    exact convertValue_per_some v q hq
  · intro i v hi hv hq
    rw [colVal_eq_convert _ r _ i hi v hv]
    exact convertValue_per_none v hq

/-- Witness for C4 at the one-row Halley-style payload, with the per
column at source index 1. -/
theorem C4_per_conversion_witness :
    ((∀ r ∈ [[Value.str "1P/Halley", Value.str "27740.5", Value.str "2450000.5"]],
        r.length = ["full_name", "per", "epoch"].length) ∧
     [[Value.str "1P/Halley", Value.str "27740.5", Value.str "2450000.5"]].get? 0 =
       some [Value.str "1P/Halley", Value.str "27740.5", Value.str "2450000.5"] ∧
     buildFieldMap ["full_name", "per", "epoch"] "per.y" = some 1) ∧
    (convert_to_kstars_format ⟨some ["full_name", "per", "epoch"],
        some [[Value.str "1P/Halley", Value.str "27740.5", Value.str "2450000.5"]], false⟩ =
      .ok ⟨ksSignature, kstars_fields,
           [[Value.str "1P/Halley", Value.str "27740.5", Value.str "2450000.5"]].map
             (rowFn ["full_name", "per", "epoch"]),
           ([[Value.str "1P/Halley", Value.str "27740.5", Value.str "2450000.5"]].map
             (rowFn ["full_name", "per", "epoch"])).length⟩ ∧
     ([[Value.str "1P/Halley", Value.str "27740.5", Value.str "2450000.5"]].map
        (rowFn ["full_name", "per", "epoch"])).get? 0 =
       some (rowFn ["full_name", "per", "epoch"]
         [Value.str "1P/Halley", Value.str "27740.5", Value.str "2450000.5"]) ∧
     (rowFn ["full_name", "per", "epoch"]
        [Value.str "1P/Halley", Value.str "27740.5", Value.str "2450000.5"]).get? 16 =
       some (colVal (buildFieldMap ["full_name", "per", "epoch"])
         [Value.str "1P/Halley", Value.str "27740.5", Value.str "2450000.5"] "per.y") ∧
     (buildFieldMap ["full_name", "per", "epoch"] "per.y" = none →
       colVal (buildFieldMap ["full_name", "per", "epoch"])
         [Value.str "1P/Halley", Value.str "27740.5", Value.str "2450000.5"] "per.y" =
       Value.null) ∧
     (∀ i v q, buildFieldMap ["full_name", "per", "epoch"] "per.y" = some i →
       [Value.str "1P/Halley", Value.str "27740.5", Value.str "2450000.5"].get? i = some v →
       toFloat v = some q →
       colVal (buildFieldMap ["full_name", "per", "epoch"])
         [Value.str "1P/Halley", Value.str "27740.5", Value.str "2450000.5"] "per.y" =
       Value.num (q / 365.25)) ∧
     (∀ i v, buildFieldMap ["full_name", "per", "epoch"] "per.y" = some i →
       [Value.str "1P/Halley", Value.str "27740.5", Value.str "2450000.5"].get? i = some v →
       toFloat v = none →
       colVal (buildFieldMap ["full_name", "per", "epoch"])
         [Value.str "1P/Halley", Value.str "27740.5", Value.str "2450000.5"] "per.y" =
       Value.null)) :=
  ⟨⟨by decide, by decide, by decide⟩,
   C4_per_conversion ["full_name", "per", "epoch"]
     [[Value.str "1P/Halley", Value.str "27740.5", Value.str "2450000.5"]] false (by decide)
     0 [Value.str "1P/Halley", Value.str "27740.5", Value.str "2450000.5"] (by decide)⟩
